import Mathlib

/-!
Verification development for the Music-Remover repository.

Shallow embedding of the two core modules:
* the preset parameter mapper of the audio effects processor
  (AudioFX.updateFilters and its filter-node defaults), and
* the export job orchestrator (Exporter.downloadProcessedAudio,
  Exporter.downloadProcessedVideo, Exporter.audioBufferToWav).

Machine floats of the source are modelled as rationals, DOM side effects as
explicit event traces, and the stateful Exporter object as an explicit record
of its stored fields.
-/

/-- The preset identifiers of the audio effects processor.  The source keys
its switch on the strings off, speech and music-reduce. -/
inductive Preset where
  | off
  | speech
  | musicReduce
deriving DecidableEq, Fintype

/-- The mutable parameter values held by the live filter nodes of AudioFX:
gain of the low-shelf filter, gain of the high-shelf filter, frequency, gain
and Q of the peaking filter, and threshold and ratio value of the dynamics
compressor.  All values modelled as rationals. -/
structure FilterState where
  lowShelfGain : ℚ
  highShelfGain : ℚ
  peakFreq : ℚ
  peakGain : ℚ
  peakQ : ℚ
  compThreshold : ℚ
  compRatioVal : ℚ
deriving DecidableEq

/-- The initial filter parameters installed by AudioFX.createFilters:
low shelf gain 0 at 200 Hz, high shelf gain 0 at 4000 Hz, peaking filter at
2000 Hz with Q 0.5 and gain 0, compressor threshold -24 and ratio 4. -/
def createFilters : FilterState :=
  { lowShelfGain := 0
    highShelfGain := 0
    peakFreq := 2000
    peakGain := 0
    peakQ := 0.5
    compThreshold := -24
    compRatioVal := 4 }

/-- AudioFX.updateFilters: recomputes the live filter parameters from the
current preset and the reduction strength (the slider value, an integer
percentage).  The source divides the strength by 100 and switches on the
preset; the off branch resets the three gains and the compressor to the
defaults but leaves the peaking frequency and Q untouched.  The early return
of the source when the audio context is not yet constructed guards context
availability only and is outside this pure parameter mapping. -/
def updateFilters (preset : Preset) (reductionStrength : ℕ) (st : FilterState) :
    FilterState :=
  let strength : ℚ := (reductionStrength : ℚ) / 100
  match preset with
  | Preset.speech =>
      { st with
        lowShelfGain := -12 * strength
        highShelfGain := -8 * strength
        peakFreq := 2500
        peakGain := 6 * strength
        peakQ := 0.8
        compThreshold := -20 - 10 * strength
        compRatioVal := 4 + 4 * strength }
  | Preset.musicReduce =>
      { st with
        lowShelfGain := -15 * strength
        highShelfGain := -10 * strength
        peakFreq := 1500
        peakGain := 3 * strength
        peakQ := 0.5
        compThreshold := -30
        compRatioVal := 6 + 6 * strength }
  | Preset.off =>
      { st with
        lowShelfGain := 0
        highShelfGain := 0
        peakGain := 0
        compThreshold := -24
        compRatioVal := 4 }

/-- Claim C6: updateFilters with the Off preset yields the neutral parameter
set for every strength: all three filter gains are 0 and the compressor
threshold and ratio equal the defaults installed by createFilters,
independently of the strength argument and of the prior state. -/
theorem C6_off_neutral (s : ℕ) (st : FilterState) :
    (updateFilters Preset.off s st).lowShelfGain = 0 ∧
    (updateFilters Preset.off s st).highShelfGain = 0 ∧
    (updateFilters Preset.off s st).peakGain = 0 ∧
    (updateFilters Preset.off s st).compThreshold = createFilters.compThreshold ∧
    (updateFilters Preset.off s st).compRatioVal = createFilters.compRatioVal := by
  refine ⟨rfl, rfl, rfl, rfl, rfl⟩

/-- Claim C7 as stated is false: at strength 0 the speech preset installs a
peaking frequency of 2500 Hz and a Q of 0.8, while the Off preset leaves the
defaults 2000 Hz and 0.5 in place, so the strength-0 output does not equal the
Off parameter set in the peak frequency and peak Q terms. -/
theorem C7_counterexample :
    (updateFilters Preset.speech 0 createFilters).peakFreq ≠
      (updateFilters Preset.off 0 createFilters).peakFreq ∧
    (updateFilters Preset.speech 0 createFilters).peakQ ≠
      (updateFilters Preset.off 0 createFilters).peakQ := by
  constructor <;> · simp only [updateFilters, createFilters]; norm_num

/-- Claim C7 amended: at strength 0 every preset agrees with the Off parameter
set on the low-shelf gain, high-shelf gain and peak gain (all 0), but the peak
frequency and peak Q are preset-specific: speech installs 2500 Hz with Q 0.8,
music-reduce installs 1500 Hz with Q 0.5, while Off leaves the prior values
untouched. -/
theorem C7_zero_strength_gains (p : Preset) (st : FilterState) :
    ((updateFilters p 0 st).lowShelfGain = 0 ∧
     (updateFilters p 0 st).highShelfGain = 0 ∧
     (updateFilters p 0 st).peakGain = 0) ∧
    ((updateFilters Preset.speech 0 st).peakFreq = 2500 ∧
     (updateFilters Preset.speech 0 st).peakQ = 0.8) ∧
    ((updateFilters Preset.musicReduce 0 st).peakFreq = 1500 ∧
     (updateFilters Preset.musicReduce 0 st).peakQ = 0.5) ∧
    ((updateFilters Preset.off 0 st).peakFreq = st.peakFreq ∧
     (updateFilters Preset.off 0 st).peakQ = st.peakQ) := by
  refine ⟨?_, ⟨rfl, rfl⟩, ⟨rfl, rfl⟩, ⟨rfl, rfl⟩⟩
  cases p <;> refine ⟨?_, ?_, ?_⟩ <;> simp [updateFilters]

/-- Claim C8: for each non-Off preset, the effect strength is monotone in the
strength percentage: with s1 less or equal s2, the low-shelf and high-shelf
attenuation magnitudes, the peaking-band boost, the compressor ratio and the
compressor threshold depth at s1 are all less or equal those at s2. -/
theorem C8_strength_monotone (p : Preset) (hp : p ≠ Preset.off)
    (s1 s2 : ℕ) (h12 : s1 ≤ s2) (st : FilterState) :
    -(updateFilters p s1 st).lowShelfGain ≤ -(updateFilters p s2 st).lowShelfGain ∧
    -(updateFilters p s1 st).highShelfGain ≤ -(updateFilters p s2 st).highShelfGain ∧
    (updateFilters p s1 st).peakGain ≤ (updateFilters p s2 st).peakGain ∧
    (updateFilters p s1 st).compRatioVal ≤ (updateFilters p s2 st).compRatioVal ∧
    -(updateFilters p s1 st).compThreshold ≤ -(updateFilters p s2 st).compThreshold := by
  have hq : (s1 : ℚ) ≤ (s2 : ℚ) := by exact_mod_cast h12
  cases p with
  | off => exact absurd rfl hp
  | speech =>
      refine ⟨?_, ?_, ?_, ?_, ?_⟩ <;> simp only [updateFilters] <;> linarith
  | musicReduce =>
      refine ⟨?_, ?_, ?_, ?_, ?_⟩ <;> simp only [updateFilters] <;> linarith

/-- Witness for C8 at the speech preset with strengths 10 and 50. -/
theorem C8_strength_monotone_witness :
    (Preset.speech ≠ Preset.off ∧ 10 ≤ 50) ∧
    (-(updateFilters Preset.speech 10 createFilters).lowShelfGain ≤
       -(updateFilters Preset.speech 50 createFilters).lowShelfGain ∧
     -(updateFilters Preset.speech 10 createFilters).highShelfGain ≤
       -(updateFilters Preset.speech 50 createFilters).highShelfGain ∧
     (updateFilters Preset.speech 10 createFilters).peakGain ≤
       (updateFilters Preset.speech 50 createFilters).peakGain ∧
     (updateFilters Preset.speech 10 createFilters).compRatioVal ≤
       (updateFilters Preset.speech 50 createFilters).compRatioVal ∧
     -(updateFilters Preset.speech 10 createFilters).compThreshold ≤
       -(updateFilters Preset.speech 50 createFilters).compThreshold) :=
  ⟨⟨by decide, by decide⟩,
   C8_strength_monotone Preset.speech (by decide) 10 50 (by decide) createFilters⟩

/-- Little-endian bytes of a 16-bit unsigned write, as produced by
DataView.setUint16 with littleEndian true: the value is reduced modulo 2^16
and emitted low byte first. -/
def u16le (v : ℕ) : List ℕ := [v % 256, v / 256 % 256]

/-- Little-endian bytes of a 32-bit unsigned write, as produced by
DataView.setUint32 with littleEndian true. -/
def u32le (v : ℕ) : List ℕ :=
  [v % 256, v / 256 % 256, v / 65536 % 256, v / 16777216 % 256]

/-- Little-endian bytes of a 16-bit signed write, as produced by
DataView.setInt16: the integer is reduced modulo 2^16 to its two's-complement
raw value and emitted low byte first. -/
def i16le (n : ℤ) : List ℕ := u16le (n % 65536).toNat

/-- A decoded multi-channel audio buffer as consumed by
Exporter.audioBufferToWav: channel count, sample rate, frame count (the
buffer length) and the per-channel float data, modelled as rationals and
indexed channel first, then frame. -/
structure AudioBuffer where
  numberOfChannels : ℕ
  sampleRate : ℕ
  length : ℕ
  channelData : ℕ → ℕ → ℚ

/-- The clamp applied to each float sample before scaling:
Math.max(-1, Math.min(1, s)). -/
def clampSample (x : ℚ) : ℚ := max (-1) (min 1 x)

/-- The asymmetric scaling of a clamped sample to the signed 16-bit range:
negatives are multiplied by 0x8000, non-negatives by 0x7FFF. -/
def scaleSample (s : ℚ) : ℚ := if s < 0 then s * 32768 else s * 32767

/-- Truncation toward zero, as performed by DataView.setInt16 on a
non-integral argument (ToIntegerOrInfinity). -/
def truncQ (q : ℚ) : ℤ := if q < 0 then ⌈q⌉ else ⌊q⌋

/-- The signed 16-bit integer stored for one float sample: clamp, scale with
the asymmetric factors, truncate toward zero. -/
def encInt (x : ℚ) : ℤ := truncQ (scaleSample (clampSample x))

/-- The two bytes written for one sample by the inner loop of
Exporter.audioBufferToWav. -/
def sampleBytes (x : ℚ) : List ℕ := i16le (encInt x)

/-- The bytes written for the channels ch, ch+1, ..., ch+c-1 of frame i by
the inner channel loop. -/
def chanBytes (buf : AudioBuffer) (i : ℕ) : ℕ → ℕ → List ℕ
  | _, 0 => []
  | ch, c + 1 =>
      sampleBytes (buf.channelData ch i) ++ chanBytes buf i (ch + 1) c

/-- The interleaved bytes of one frame: one 16-bit sample per channel. -/
def frameBytes (buf : AudioBuffer) (i : ℕ) : List ℕ :=
  chanBytes buf i 0 buf.numberOfChannels

/-- The bytes of n consecutive frames starting at frame start, written by the
outer sample loop. -/
def framesBytes (buf : AudioBuffer) : ℕ → ℕ → List ℕ
  | _, 0 => []
  | i, n + 1 => frameBytes buf i ++ framesBytes buf (i + 1) n

/-- The full interleaved 16-bit PCM data section. -/
def dataBytes (buf : AudioBuffer) : List ℕ := framesBytes buf 0 buf.length

/-- The canonical 44-byte RIFF/WAVE header written by
Exporter.audioBufferToWav.  The four-character tags RIFF, WAVE, fmt and data
appear as their ASCII codes; format is 1 (PCM) and bit depth 16, so the block
align is numberOfChannels * 2 and the data length is length * blockAlign. -/
def wavHeader (buf : AudioBuffer) : List ℕ :=
  let numChannels := buf.numberOfChannels
  let blockAlign := numChannels * 2
  let dataLength := buf.length * blockAlign
  let bufferLength := 44 + dataLength
  [82, 73, 70, 70] ++ u32le (bufferLength - 8) ++
  [87, 65, 86, 69] ++ [102, 109, 116, 32] ++
  u32le 16 ++ u16le 1 ++ u16le numChannels ++ u32le buf.sampleRate ++
  u32le (buf.sampleRate * blockAlign) ++ u16le blockAlign ++ u16le 16 ++
  [100, 97, 116, 97] ++ u32le dataLength

/-- Exporter.audioBufferToWav: the header followed by the interleaved
16-bit samples. -/
def audioBufferToWav (buf : AudioBuffer) : List ℕ :=
  wavHeader buf ++ dataBytes buf

theorem chanBytes_length (buf : AudioBuffer) (i : ℕ) :
    ∀ (c ch : ℕ), (chanBytes buf i ch c).length = c * 2 := by
  intro c
  induction c with
  | zero => intro ch; rfl
  | succ c ih =>
      intro ch
      simp only [chanBytes, List.length_append, ih]
      simp [sampleBytes, i16le, u16le]
      ring

theorem frameBytes_length (buf : AudioBuffer) (i : ℕ) :
    (frameBytes buf i).length = buf.numberOfChannels * 2 :=
  chanBytes_length buf i buf.numberOfChannels 0

theorem framesBytes_length (buf : AudioBuffer) :
    ∀ (n start : ℕ),
      (framesBytes buf start n).length = n * (buf.numberOfChannels * 2) := by
  intro n
  induction n with
  | zero => intro start; simp [framesBytes]
  | succ n ih =>
      intro start
      simp only [framesBytes, List.length_append, frameBytes_length, ih]
      ring

theorem dataBytes_length (buf : AudioBuffer) :
    (dataBytes buf).length = buf.length * buf.numberOfChannels * 2 := by
  simp only [dataBytes, framesBytes_length]
  ring

set_option maxHeartbeats 1600000 in
/-- Claim C1: the encoder output has total length 44 plus
frames * channels * 2, and its 44-byte header carries the channel count at
offset 22, the sample rate at offset 24, bit depth 16 at offset 34 and the
data length at offset 40, all little-endian. -/
theorem C1_wav_header_layout (buf : AudioBuffer) :
    (audioBufferToWav buf).length =
      44 + buf.length * buf.numberOfChannels * 2 ∧
    ((audioBufferToWav buf).drop 22).take 2 = u16le buf.numberOfChannels ∧
    ((audioBufferToWav buf).drop 24).take 4 = u32le buf.sampleRate ∧
    ((audioBufferToWav buf).drop 34).take 2 = u16le 16 ∧
    ((audioBufferToWav buf).drop 40).take 4 =
      u32le (buf.length * buf.numberOfChannels * 2) := by
  have hlen : (wavHeader buf).length = 44 := rfl
  refine ⟨?_, ?_, ?_, ?_, ?_⟩
  · simp only [audioBufferToWav, List.length_append, hlen, dataBytes_length]
  · rfl
  · rfl
  · rfl
  · have h40 : ((audioBufferToWav buf).drop 40).take 4 =
        u32le (buf.length * (buf.numberOfChannels * 2)) := rfl
    rw [h40, mul_assoc]

theorem drop_append_len {α : Type} (l1 l2 : List α) (n : ℕ) :
    (l1 ++ l2).drop (l1.length + n) = l2.drop n := by
  induction l1 with
  | nil => simp
  | cons a t ih =>
      simp only [List.cons_append, List.length_cons]
      have h : t.length + 1 + n = t.length + n + 1 := by omega
      rw [h, List.drop_succ_cons, ih]

theorem drop_append_of_le {α : Type} (l1 l2 : List α) (n : ℕ)
    (h : n ≤ l1.length) : (l1 ++ l2).drop n = l1.drop n ++ l2 := by
  induction l1 generalizing n with
  | nil =>
      have hn : n = 0 := by simpa using h
      simp [hn]
  | cons a t ih =>
      cases n with
      | zero => simp
      | succ n =>
          simp only [List.cons_append, List.drop_succ_cons]
          exact ih n (by simpa using h)

theorem take_append_len {α : Type} (l1 l2 : List α) (k : ℕ)
    (h : l1.length = k) : (l1 ++ l2).take k = l1 := by
  induction l1 generalizing k with
  | nil => simp [h.symm]
  | cons a t ih =>
      cases k with
      | zero => simp at h
      | succ k =>
          simp only [List.cons_append, List.take_succ_cons]
          rw [ih k (by simpa using h)]

theorem chanBytes_drop (buf : AudioBuffer) (i : ℕ) :
    ∀ (c ch j : ℕ), j < c →
      (chanBytes buf i ch c).drop (j * 2) =
        sampleBytes (buf.channelData (ch + j) i) ++
          chanBytes buf i (ch + j + 1) (c - (j + 1)) := by
  intro c
  induction c with
  | zero => intro ch j hj; omega
  | succ c ih =>
      intro ch j hj
      cases j with
      | zero => simp [chanBytes]
      | succ j =>
          have hlen : (sampleBytes (buf.channelData ch i)).length = 2 := rfl
          have hstep : (j + 1) * 2 =
              (sampleBytes (buf.channelData ch i)).length + j * 2 := by
            rw [hlen]; ring
          rw [chanBytes, hstep, drop_append_len, ih (ch + 1) j (by omega)]
          have e1 : ch + 1 + j = ch + (j + 1) := by omega
          have e2 : c - (j + 1) = c + 1 - (j + 1 + 1) := by omega
          rw [e1, e2]

theorem framesBytes_drop (buf : AudioBuffer) :
    ∀ (n start k : ℕ), k < n →
      (framesBytes buf start n).drop (k * (buf.numberOfChannels * 2)) =
        frameBytes buf (start + k) ++
          framesBytes buf (start + k + 1) (n - (k + 1)) := by
  intro n
  induction n with
  | zero => intro start k hk; omega
  | succ n ih =>
      intro start k hk
      cases k with
      | zero => simp [framesBytes]
      | succ k =>
          have hstep : (k + 1) * (buf.numberOfChannels * 2) =
              (frameBytes buf start).length + k * (buf.numberOfChannels * 2) := by
            rw [frameBytes_length]; ring
          rw [framesBytes, hstep, drop_append_len, ih (start + 1) k (by omega)]
          have e1 : start + 1 + k = start + (k + 1) := by omega
          have e2 : n - (k + 1) = n + 1 - (k + 1 + 1) := by omega
          rw [e1, e2]

/-- The byte pair of the sample for channel ch of frame i sits at offset
44 + (i * numberOfChannels + ch) * 2 of the encoder output. -/
theorem audioBufferToWav_sample_bytes (buf : AudioBuffer) (i ch : ℕ)
    (hi : i < buf.length) (hch : ch < buf.numberOfChannels) :
    ((audioBufferToWav buf).drop
        (44 + (i * buf.numberOfChannels + ch) * 2)).take 2 =
      sampleBytes (buf.channelData ch i) := by
  have hlen : (wavHeader buf).length = 44 := rfl
  have hdrop : (audioBufferToWav buf).drop
      (44 + (i * buf.numberOfChannels + ch) * 2) =
      (dataBytes buf).drop ((i * buf.numberOfChannels + ch) * 2) := by
    rw [audioBufferToWav, ← hlen, drop_append_len]
  rw [hdrop]
  have hsplit : (i * buf.numberOfChannels + ch) * 2 =
      i * (buf.numberOfChannels * 2) + ch * 2 := by ring
  rw [hsplit, ← List.drop_drop]
  rw [dataBytes, framesBytes_drop buf buf.length 0 i hi]
  have hch2 : ch * 2 ≤ (frameBytes buf (0 + i)).length := by
    rw [frameBytes_length]; omega
  rw [drop_append_of_le _ _ _ hch2]
  have hinner : (frameBytes buf (0 + i)).drop (ch * 2) =
      sampleBytes (buf.channelData ch (0 + i)) ++
        chanBytes buf (0 + i) (ch + 1) (buf.numberOfChannels - (ch + 1)) := by
    have := chanBytes_drop buf (0 + i) buf.numberOfChannels 0 ch hch
    simpa [frameBytes] using this
  rw [hinner, List.append_assoc]
  simp only [Nat.zero_add]
  exact take_append_len _ _ 2 rfl

/-- Reading back a 16-bit little-endian signed sample from its two bytes:
reassemble the raw value and take the two's complement when the raw value is
at least 2^15.  Any malformed byte list reads as 0. -/
def readI16leList (bs : List ℕ) : ℤ :=
  match bs with
  | [b0, b1] =>
      if 32768 ≤ b0 + 256 * b1 then (b0 : ℤ) + 256 * b1 - 65536
      else (b0 : ℤ) + 256 * b1
  | _ => 0

/-- Decoding a stored 16-bit sample back to a float, inverting the asymmetric
scale factors of the encoder: negatives divide by 0x8000, non-negatives by
0x7FFF. -/
def decodeSample (n : ℤ) : ℚ := if n < 0 then (n : ℚ) / 32768 else (n : ℚ) / 32767

theorem encInt_range (x : ℚ) : -32768 ≤ encInt x ∧ encInt x ≤ 32767 := by
  have h1 : -1 ≤ clampSample x := le_max_left _ _
  have h2 : clampSample x ≤ 1 := by
    have := min_le_left 1 x
    calc clampSample x = max (-1) (min 1 x) := rfl
    _ ≤ max (-1) 1 := max_le_max le_rfl this
    _ = 1 := by norm_num
  unfold encInt truncQ scaleSample
  by_cases hneg : clampSample x < 0
  · rw [if_pos hneg, if_pos (by nlinarith : clampSample x * 32768 < 0)]
    constructor
    · have hq : ((-32768 : ℤ) : ℚ) ≤ clampSample x * 32768 := by
        push_cast
        nlinarith
      have := le_trans hq (Int.le_ceil _)
      exact_mod_cast this
    · have : clampSample x * 32768 ≤ 0 := by nlinarith
      have hc : ⌈clampSample x * 32768⌉ ≤ ⌈(0 : ℚ)⌉ := Int.ceil_le_ceil this
      simp only [Int.ceil_zero] at hc
      omega
  · push_neg at hneg
    rw [if_neg (not_lt.mpr hneg), if_neg (by nlinarith : ¬ clampSample x * 32767 < 0)]
    constructor
    · have : (0 : ℚ) ≤ clampSample x * 32767 := by nlinarith
      have hf : ⌊(0 : ℚ)⌋ ≤ ⌊clampSample x * 32767⌋ := Int.floor_le_floor this
      simp only [Int.floor_zero] at hf
      omega
    · have hle : clampSample x * 32767 ≤ 32767 := by nlinarith
      have : (⌊clampSample x * 32767⌋ : ℚ) ≤ 32767 :=
        le_trans (Int.floor_le _) hle
      exact_mod_cast this

theorem readI16leList_i16le (n : ℤ) (h1 : -32768 ≤ n) (h2 : n ≤ 32767) :
    readI16leList (i16le n) = n := by
  have hm : ((n % 65536).toNat : ℤ) = n % 65536 := by
    have : (0 : ℤ) ≤ n % 65536 := Int.emod_nonneg n (by norm_num)
    omega
  simp only [i16le, u16le, readI16leList]
  split
  · omega
  · omega

theorem clampSample_eq_self (x : ℚ) (h1 : -1 ≤ x) (h2 : x ≤ 1) :
    clampSample x = x := by
  unfold clampSample
  rw [min_eq_right h2, max_eq_right h1]

theorem decode_roundtrip (x : ℚ) (h1 : -1 ≤ x) (h2 : x ≤ 1) :
    |decodeSample (encInt x) - x| ≤ 1 / 32767 := by
  have hc : clampSample x = x := clampSample_eq_self x h1 h2
  unfold encInt truncQ scaleSample
  rw [hc]
  by_cases hneg : x < 0
  · rw [if_pos hneg, if_pos (by nlinarith : x * 32768 < 0)]
    set n : ℤ := ⌈x * 32768⌉ with hn
    have hub : (n : ℚ) < x * 32768 + 1 := Int.ceil_lt_add_one _
    have hlb : x * 32768 ≤ (n : ℚ) := Int.le_ceil _
    have hn0 : n ≤ 0 := by
      have : x * 32768 ≤ 0 := by nlinarith
      have hcc : ⌈x * 32768⌉ ≤ ⌈(0 : ℚ)⌉ := Int.ceil_le_ceil this
      simpa using hcc
    unfold decodeSample
    by_cases hnl : n < 0
    · rw [if_pos hnl, abs_le]
      have hq : (n : ℚ) ≤ 0 := by exact_mod_cast le_of_lt hnl
      constructor <;> nlinarith
    · have hz : n = 0 := le_antisymm hn0 (not_lt.mp hnl)
      rw [if_neg hnl, hz, abs_le]
      simp only [Int.cast_zero, zero_div, zero_sub]
      have hx1 : x * 32768 + 1 > 0 := by
        rw [hz] at hub
        simpa using hub
      constructor <;> nlinarith
  · push_neg at hneg
    rw [if_neg (not_lt.mpr hneg), if_neg (by nlinarith : ¬ x * 32767 < 0)]
    set n : ℤ := ⌊x * 32767⌋ with hn
    have hlb : (n : ℚ) ≤ x * 32767 := Int.floor_le _
    have hub : x * 32767 < (n : ℚ) + 1 := Int.lt_floor_add_one _
    have hn0 : 0 ≤ n := by
      have : (0 : ℚ) ≤ x * 32767 := by nlinarith
      have hff : ⌊(0 : ℚ)⌋ ≤ ⌊x * 32767⌋ := Int.floor_le_floor this
      simpa using hff
    unfold decodeSample
    rw [if_neg (by omega : ¬ n < 0), abs_le]
    constructor <;> nlinarith

/-- Claim C5: for a buffer whose samples all lie in the closed interval from
-1 to 1, the stored integer of every sample fits the signed 16-bit range, its
two bytes in the encoder output (at offset 44 + (frame * channels + ch) * 2,
little-endian) are exactly the two's-complement encoding of that integer, and
decoding those bytes with the asymmetric scale factors recovers the original
sample within one 16-bit quantization step. -/
theorem C5_wav_roundtrip (buf : AudioBuffer)
    (hs : ∀ ch i, ch < buf.numberOfChannels → i < buf.length →
      -1 ≤ buf.channelData ch i ∧ buf.channelData ch i ≤ 1)
    (i ch : ℕ) (hi : i < buf.length) (hch : ch < buf.numberOfChannels) :
    (-32768 ≤ encInt (buf.channelData ch i) ∧
      encInt (buf.channelData ch i) ≤ 32767) ∧
    ((audioBufferToWav buf).drop
        (44 + (i * buf.numberOfChannels + ch) * 2)).take 2 =
      i16le (encInt (buf.channelData ch i)) ∧
    |decodeSample (readI16leList (((audioBufferToWav buf).drop
        (44 + (i * buf.numberOfChannels + ch) * 2)).take 2)) -
      buf.channelData ch i| ≤ 1 / 32767 := by
  obtain ⟨hx1, hx2⟩ := hs ch i hch hi
  obtain ⟨hr1, hr2⟩ := encInt_range (buf.channelData ch i)
  have hbytes := audioBufferToWav_sample_bytes buf i ch hi hch
  refine ⟨⟨hr1, hr2⟩, hbytes, ?_⟩
  rw [hbytes]
  show |decodeSample (readI16leList (i16le (encInt (buf.channelData ch i)))) -
      buf.channelData ch i| ≤ 1 / 32767
  rw [readI16leList_i16le _ hr1 hr2]
  exact decode_roundtrip _ hx1 hx2

/-- A concrete one-channel, one-frame buffer whose single sample is 1/2,
used to witness the round-trip theorem. -/
def demoBuf : AudioBuffer :=
  { numberOfChannels := 1
    sampleRate := 8000
    length := 1
    channelData := fun _ _ => 1 / 2 }

/-- Witness for C5 on the concrete buffer demoBuf at frame 0, channel 0. -/
theorem C5_wav_roundtrip_witness :
    (-32768 ≤ encInt (demoBuf.channelData 0 0) ∧
      encInt (demoBuf.channelData 0 0) ≤ 32767) ∧
    ((audioBufferToWav demoBuf).drop
        (44 + (0 * demoBuf.numberOfChannels + 0) * 2)).take 2 =
      i16le (encInt (demoBuf.channelData 0 0)) ∧
    |decodeSample (readI16leList (((audioBufferToWav demoBuf).drop
        (44 + (0 * demoBuf.numberOfChannels + 0) * 2)).take 2)) -
      demoBuf.channelData 0 0| ≤ 1 / 32767 :=
  C5_wav_roundtrip demoBuf
    (fun _ _ _ _ =>
      ⟨show (-1 : ℚ) ≤ 1 / 2 by norm_num, show (1 : ℚ) / 2 ≤ 1 by norm_num⟩)
    0 0 (by decide) (by decide)

/-- The fields stored on the Exporter object: whether the ffmpeg engine
instance exists (this.ffmpeg is non-null), whether an engine load is in
flight (this.isLoading), whether an export job is active (this.isExporting)
and whether an abort handle is installed (this.abortController is
non-null). -/
structure ExporterState where
  ffmpegLoaded : Bool
  isLoading : Bool
  isExporting : Bool
  hasAbortController : Bool
deriving DecidableEq, Fintype

/-- The AudioFX fields the export admission gate reads: the current preset
and the A/B toggle flag selecting the processed path. -/
structure AudioFxState where
  currentPreset : Preset
  isProcessed : Bool
deriving DecidableEq, Fintype

/-- AudioFX.isAudioProcessed: the A/B toggle is on the processed path and
the current preset is not off. -/
def isAudioProcessed (fx : AudioFxState) : Bool :=
  fx.isProcessed && decide (fx.currentPreset ≠ Preset.off)

/-- Outcome of a call to Exporter.downloadProcessedAudio: the busy warning
toast, the select-a-preset warning toast, the silent return when the video
element is missing, or a started capture. -/
inductive AudioOutcome where
  | busyToast
  | presetToast
  | noVideo
  | started
deriving DecidableEq

/-- The admission prefix of Exporter.downloadProcessedAudio: reject with a
busy toast if an export is in progress; reject with a preset toast if the
AudioFX object is absent or isAudioProcessed is false; return silently if
the video element is absent; otherwise mark the exporter busy, start the
capture and install the abort handle. -/
def downloadProcessedAudio (ex : ExporterState) (fxPresent : Bool)
    (fx : AudioFxState) (videoPresent : Bool) : ExporterState × AudioOutcome :=
  if ex.isExporting then (ex, AudioOutcome.busyToast)
  else if !fxPresent || !(isAudioProcessed fx) then (ex, AudioOutcome.presetToast)
  else if !videoPresent then (ex, AudioOutcome.noVideo)
  else ({ ex with isExporting := true, hasAbortController := true },
        AudioOutcome.started)

/-- The application-level facts Exporter.downloadProcessedVideo reads: the
presence of the video element, whether a locally supplied file backs the
source (this.app.videoFile is non-null; URL-sourced videos leave it null)
and the current preset used to pick the ffmpeg audio filter. -/
structure VideoAppState where
  videoPresent : Bool
  hasVideoFile : Bool
  preset : Preset
deriving DecidableEq, Fintype

/-- The outcomes of the awaited external operations during a video export:
whether the engine load, the working-storage write, the transcode run and
the output read each succeed. -/
structure VideoEnv where
  loadOk : Bool
  writeOk : Bool
  execOk : Bool
  readOk : Bool
deriving DecidableEq, Fintype

/-- The two working-storage entries of the transcoding engine. -/
inductive WorkFile where
  | input
  | output
deriving DecidableEq

/-- The error dispositions a video export can settle with. -/
inductive ExpErr where
  | engineLoad
  | sourceNotReencodable
  | writeFailed
  | transcode
  | readFailed
deriving DecidableEq

/-- The observable events of a video-export run, in program order: the busy
warning toast, an actual engine load attempt (the dynamic import inside
loadFFmpeg, skipped when the instance is cached), the working-storage write
of the input, the transcode run (with or without an audio filter expression),
the output read, the download delivery, a working-storage deletion, the
success toast and the error toast of the catch block. -/
inductive ExpEvent where
  | toastBusy
  | engineLoadAttempt
  | wroteInput
  | ranExec (withFilter : Bool)
  | readOutput
  | downloadDelivered
  | deletedFile (f : WorkFile)
  | toastSuccess
  | toastError (k : ExpErr)
deriving DecidableEq

/-- Exporter.downloadProcessedVideo as a state transformer with an event
trace.  The source rejects when busy, marks the exporter busy, awaits
loadFFmpeg (an actual load only when no cached instance exists), then checks
for a locally supplied file, writes the input into working storage, runs the
transcode (choosing an audio filter expression when the preset is not off),
reads the output, delivers the download, deletes both working-storage
entries and reports success.  Every thrown failure lands in the catch block,
which toasts an error and clears the busy flag; the deletions sit on the
success path only. -/
def downloadProcessedVideo (ex : ExporterState) (app : VideoAppState)
    (env : VideoEnv) : ExporterState × List ExpEvent :=
  if ex.isExporting then (ex, [ExpEvent.toastBusy])
  else
    let ex1 : ExporterState := { ex with isExporting := true }
    let loadEvts : List ExpEvent :=
      if ex1.ffmpegLoaded then [] else [ExpEvent.engineLoadAttempt]
    if !ex1.ffmpegLoaded && !env.loadOk then
      ({ ex1 with isExporting := false },
       loadEvts ++ [ExpEvent.toastError ExpErr.engineLoad])
    else
      let ex2 : ExporterState := { ex1 with ffmpegLoaded := true }
      if !(app.videoPresent && app.hasVideoFile) then
        ({ ex2 with isExporting := false },
         loadEvts ++ [ExpEvent.toastError ExpErr.sourceNotReencodable])
      else if !env.writeOk then
        ({ ex2 with isExporting := false },
         loadEvts ++ [ExpEvent.toastError ExpErr.writeFailed])
      else if !env.execOk then
        ({ ex2 with isExporting := false },
         loadEvts ++ [ExpEvent.wroteInput, ExpEvent.toastError ExpErr.transcode])
      else if !env.readOk then
        ({ ex2 with isExporting := false },
         loadEvts ++ [ExpEvent.wroteInput,
           ExpEvent.ranExec (decide (app.preset ≠ Preset.off)),
           ExpEvent.toastError ExpErr.readFailed])
      else
        ({ ex2 with isExporting := false },
         loadEvts ++ [ExpEvent.wroteInput,
           ExpEvent.ranExec (decide (app.preset ≠ Preset.off)),
           ExpEvent.readOutput, ExpEvent.downloadDelivered,
           ExpEvent.deletedFile WorkFile.input,
           ExpEvent.deletedFile WorkFile.output,
           ExpEvent.toastSuccess])

/-- Claim C2: while an export is in progress, both export entry points
reject the request with the busy warning toast, return the exporter state
unchanged (flags and abort handle untouched) and queue nothing. -/
theorem C2_single_job (ex : ExporterState) (fxPresent : Bool)
    (fx : AudioFxState) (videoPresent : Bool) (app : VideoAppState)
    (env : VideoEnv) (h : ex.isExporting = true) :
    downloadProcessedAudio ex fxPresent fx videoPresent =
      (ex, AudioOutcome.busyToast) ∧
    downloadProcessedVideo ex app env = (ex, [ExpEvent.toastBusy]) := by
  constructor
  · simp [downloadProcessedAudio, h]
  · simp [downloadProcessedVideo, h]

/-- An exporter with an export already in progress. -/
def busyExporter : ExporterState :=
  { ffmpegLoaded := false
    isLoading := false
    isExporting := true
    hasAbortController := true }

/-- A freshly constructed exporter: no engine instance, no load in flight,
no active export, no abort handle. -/
def freshExporter : ExporterState :=
  { ffmpegLoaded := false
    isLoading := false
    isExporting := false
    hasAbortController := false }

/-- An AudioFX state with a non-off preset whose A/B toggle has been
switched back to the original signal. -/
def speechOriginalFx : AudioFxState :=
  { currentPreset := Preset.speech, isProcessed := false }

/-- A URL-sourced application state: the video element exists but no local
file backs it. -/
def urlApp : VideoAppState :=
  { videoPresent := true, hasVideoFile := false, preset := Preset.speech }

/-- A file-backed application state with the speech preset. -/
def fileApp : VideoAppState :=
  { videoPresent := true, hasVideoFile := true, preset := Preset.speech }

/-- An environment where every external operation succeeds. -/
def allOkEnv : VideoEnv :=
  { loadOk := true, writeOk := true, execOk := true, readOk := true }

/-- An environment where the transcode run fails. -/
def execFailEnv : VideoEnv :=
  { loadOk := true, writeOk := true, execOk := false, readOk := true }

/-- Witness for C2 at a concrete busy exporter. -/
theorem C2_single_job_witness :
    busyExporter.isExporting = true ∧
    (downloadProcessedAudio busyExporter true speechOriginalFx true =
       (busyExporter, AudioOutcome.busyToast) ∧
     downloadProcessedVideo busyExporter fileApp allOkEnv =
       (busyExporter, [ExpEvent.toastBusy])) :=
  ⟨rfl, C2_single_job busyExporter true speechOriginalFx true fileApp allOkEnv rfl⟩

/-- Claim C3 as stated is false at a concrete input: on a fresh exporter and
a URL-sourced video with a healthy environment, the run does settle with the
source-not-reencodable error, but the engine load attempt precedes that
failure in the event trace — loadFFmpeg is awaited before the file check. -/
theorem C3_counterexample :
    (downloadProcessedVideo freshExporter urlApp allOkEnv).2 =
      [ExpEvent.engineLoadAttempt,
       ExpEvent.toastError ExpErr.sourceNotReencodable] ∧
    ExpEvent.engineLoadAttempt ∈
      (downloadProcessedVideo freshExporter urlApp allOkEnv).2 := by
  decide

/-- Claim C3 amended: a full-video export on a URL-sourced video (no local
file) settles with the source-not-reencodable error before any transcoding
work — nothing is written to working storage and no transcode runs — but the
external engine load is awaited first, and is actually attempted whenever no
cached engine instance exists yet. -/
theorem C3_url_source_fails_after_engine_load (ex : ExporterState)
    (app : VideoAppState) (env : VideoEnv) (hbusy : ex.isExporting = false)
    (hload : env.loadOk = true) (hfile : app.hasVideoFile = false) :
    ExpEvent.toastError ExpErr.sourceNotReencodable ∈
      (downloadProcessedVideo ex app env).2 ∧
    (downloadProcessedVideo ex app env).1.isExporting = false ∧
    ExpEvent.wroteInput ∉ (downloadProcessedVideo ex app env).2 ∧
    ExpEvent.ranExec true ∉ (downloadProcessedVideo ex app env).2 ∧
    ExpEvent.ranExec false ∉ (downloadProcessedVideo ex app env).2 ∧
    (ex.ffmpegLoaded = false →
      ExpEvent.engineLoadAttempt ∈ (downloadProcessedVideo ex app env).2) := by
  cases hf : ex.ffmpegLoaded <;>
    simp [downloadProcessedVideo, hbusy, hload, hfile, hf]

/-- Witness for C3 on the concrete fresh exporter and URL-sourced state. -/
theorem C3_url_source_witness :
    (freshExporter.isExporting = false ∧ allOkEnv.loadOk = true ∧
      urlApp.hasVideoFile = false) ∧
    (ExpEvent.toastError ExpErr.sourceNotReencodable ∈
       (downloadProcessedVideo freshExporter urlApp allOkEnv).2 ∧
     (downloadProcessedVideo freshExporter urlApp allOkEnv).1.isExporting = false ∧
     ExpEvent.wroteInput ∉
       (downloadProcessedVideo freshExporter urlApp allOkEnv).2 ∧
     ExpEvent.ranExec true ∉
       (downloadProcessedVideo freshExporter urlApp allOkEnv).2 ∧
     ExpEvent.ranExec false ∉
       (downloadProcessedVideo freshExporter urlApp allOkEnv).2 ∧
     (freshExporter.ffmpegLoaded = false →
       ExpEvent.engineLoadAttempt ∈
         (downloadProcessedVideo freshExporter urlApp allOkEnv).2)) :=
  ⟨⟨rfl, rfl, rfl⟩,
   C3_url_source_fails_after_engine_load freshExporter urlApp allOkEnv rfl rfl rfl⟩

/-- Claim C9 as stated is false at a concrete input: when the transcode run
fails, the job settles with the transcode error toast and neither
working-storage entry is deleted — the cleanup sits after the success steps
inside the try block, not in a finally. -/
theorem C9_counterexample :
    ExpEvent.toastError ExpErr.transcode ∈
      (downloadProcessedVideo freshExporter fileApp execFailEnv).2 ∧
    ExpEvent.deletedFile WorkFile.input ∉
      (downloadProcessedVideo freshExporter fileApp execFailEnv).2 ∧
    ExpEvent.deletedFile WorkFile.output ∉
      (downloadProcessedVideo freshExporter fileApp execFailEnv).2 := by
  decide

/-- Claim C9 amended: the working-storage entries for the input and the
output are deleted exactly on the success path — in every run of the video
export, both deletions appear in the trace if and only if the run settles
with the success toast; every failure path skips cleanup. -/
theorem C9_cleanup_iff_success (ex : ExporterState) (app : VideoAppState)
    (env : VideoEnv) :
    (ExpEvent.deletedFile WorkFile.input ∈
        (downloadProcessedVideo ex app env).2 ∧
      ExpEvent.deletedFile WorkFile.output ∈
        (downloadProcessedVideo ex app env).2) ↔
      ExpEvent.toastSuccess ∈ (downloadProcessedVideo ex app env).2 := by
  rcases ex with ⟨f, l, e, a⟩
  rcases app with ⟨vp, hf, p⟩
  rcases env with ⟨lo, wo, eo, ro⟩
  cases f <;> cases e <;> cases vp <;> cases hf <;> cases lo <;> cases wo <;>
    cases eo <;> cases ro <;> simp [downloadProcessedVideo]

/-- Claim C10: with no export in progress and the AudioFX object and video
element present, an audio export starts if and only if the A/B toggle is on
the processed path and the current preset is not off; in particular a state
with a non-off preset whose toggle has been switched back to the original
signal is rejected with the select-a-preset toast. -/
theorem C10_admission_gate (ex : ExporterState) (fx : AudioFxState)
    (hbusy : ex.isExporting = false) :
    ((downloadProcessedAudio ex true fx true).2 = AudioOutcome.started ↔
      (fx.isProcessed = true ∧ fx.currentPreset ≠ Preset.off)) ∧
    (fx.currentPreset ≠ Preset.off → fx.isProcessed = false →
      (downloadProcessedAudio ex true fx true).2 = AudioOutcome.presetToast) := by
  rcases fx with ⟨p, proc⟩
  cases proc <;> cases p <;>
    simp [downloadProcessedAudio, isAudioProcessed, hbusy]

/-- Witness for C10 on the concrete fresh exporter and the AudioFX state
with the speech preset toggled back to the original signal. -/
theorem C10_admission_gate_witness :
    freshExporter.isExporting = false ∧
    (((downloadProcessedAudio freshExporter true speechOriginalFx true).2 =
        AudioOutcome.started ↔
       (speechOriginalFx.isProcessed = true ∧
         speechOriginalFx.currentPreset ≠ Preset.off)) ∧
     (speechOriginalFx.currentPreset ≠ Preset.off →
       speechOriginalFx.isProcessed = false →
       (downloadProcessedAudio freshExporter true speechOriginalFx true).2 =
         AudioOutcome.presetToast)) :=
  ⟨rfl, C10_admission_gate freshExporter speechOriginalFx rfl⟩

/-- The playback-position and paused-flag portion of the media element state
shared between live playback and the capture pass. -/
structure MediaState where
  currentTime : ℚ
  paused : Bool
deriving DecidableEq

/-- The capture start of Exporter.downloadProcessedAudio: save the current
position into startTime, seek to zero and begin playback.  Returns the saved
startTime together with the media state entering the capture pass. -/
def captureStart (m : MediaState) : ℚ × MediaState :=
  (m.currentTime, { currentTime := 0, paused := false })

/-- The one-shot ended handler of the capture pass: stop the recorder and
the progress interval, detach itself, seek back to the saved startTime and
pause the media. -/
def endedHandler (startTime : ℚ) (_m : MediaState) : MediaState :=
  { currentTime := startTime, paused := true }

/-- The abort handle installed for cancellation: stop the recorder and the
progress interval, detach the ended handler, seek back to the saved
startTime and pause the media — the same media effect as the ended
handler. -/
def abortHandler (startTime : ℚ) (_m : MediaState) : MediaState :=
  { currentTime := startTime, paused := true }

/-- A media state that is playing (not paused) at position 5, from which
claim C4 fails. -/
def mediaPlayingAt5 : MediaState := { currentTime := 5, paused := false }

/-- Claim C4 as stated is false at a concrete input: starting a capture from
a playing media state at position 5, both the natural-completion handler and
the abort handle leave the media paused, so neither exit path restores the
original paused flag. -/
theorem C4_counterexample :
    endedHandler (captureStart mediaPlayingAt5).1
        (captureStart mediaPlayingAt5).2 ≠ mediaPlayingAt5 ∧
    abortHandler (captureStart mediaPlayingAt5).1
        (captureStart mediaPlayingAt5).2 ≠ mediaPlayingAt5 := by
  decide

/-- Claim C4 amended: from any initial media state, both the
natural-completion handler and the abort handle restore the playback
position to its initial value exactly, but both always leave the media
paused — the original paused flag is recovered only when the media was
already paused when the capture began. -/
theorem C4_exit_restores_position_always_pauses (m0 mid : MediaState) :
    endedHandler (captureStart m0).1 mid =
      { currentTime := m0.currentTime, paused := true } ∧
    abortHandler (captureStart m0).1 mid =
      { currentTime := m0.currentTime, paused := true } :=
  ⟨rfl, rfl⟩
